import Mathlib

/-!
Shallow embedding of `src/admin-dashboard/src/services/routeOptimizationService.js`
(the RouteOptimizationService class of the NEWSS repository).

JavaScript numbers are modelled by `ℝ`; `Math.round` by the Mathlib function `round`
(both round half toward positive infinity); `Math.atan2` by `atan2` below;
the `driver.successRate || 100` default by `jsOrDefault` (`0`, `null` and
`undefined` are falsy); the stable JS `Array.prototype.sort` with the
comparator `(a, b) => b.score - a.score` by a stable insertion sort
descending on `score`.  External collaborators (`Order.findById`,
`Driver.findAvailableDrivers`, `Hub.findAvailableHubs`) are passed in as
explicit arguments (the documents they would return), and a lookup that may
fail is an `Except String` value.
-/

namespace RouteOpt

open Real

/-- Model of the JavaScript function `Math.atan2 (y, x)` (range `(-π, π]`). -/
noncomputable def atan2 (y x : ℝ) : ℝ :=
  if 0 < x then Real.arctan (y / x)
  else if x < 0 ∧ 0 ≤ y then Real.arctan (y / x) + Real.pi
  else if x < 0 then Real.arctan (y / x) - Real.pi
  else if 0 < y then Real.pi / 2
  else if y < 0 then -(Real.pi / 2)
  else 0

/-- `toRads(degrees)`: degrees to radians, `degrees * (Math.PI / 180)`. -/
noncomputable def toRads (degrees : ℝ) : ℝ := degrees * (Real.pi / 180)

/-- The intermediate value `a` computed inside `calculateDistance`.
Coordinates are `[longitude, latitude]` pairs, modelled as `ℝ × ℝ`. -/
noncomputable def haversineA (c1 c2 : ℝ × ℝ) : ℝ :=
  Real.sin (toRads (c2.2 - c1.2) / 2) * Real.sin (toRads (c2.2 - c1.2) / 2) +
    Real.sin (toRads (c2.1 - c1.1) / 2) * Real.sin (toRads (c2.1 - c1.1) / 2) *
      Real.cos (toRads c1.2) * Real.cos (toRads c2.2)

/-- `calculateDistance(coord1, coord2)`: Haversine distance in kilometers,
Earth radius 6371, `c = 2 * atan2(sqrt(a), sqrt(1 - a))`, result `R * c`. -/
noncomputable def calculateDistance (c1 c2 : ℝ × ℝ) : ℝ :=
  6371 * (2 * atan2 (Real.sqrt (haversineA c1 c2)) (Real.sqrt (1 - haversineA c1 c2)))

lemma atan2_nonneg {y x : ℝ} (hy : 0 ≤ y) (hx : 0 ≤ x) : 0 ≤ atan2 y x := by
  unfold atan2
  rcases lt_or_eq_of_le hx with hx' | hx'
  · rw [if_pos hx']
    have h0 : Real.arctan 0 ≤ Real.arctan (y / x) :=
      Real.arctan_strictMono.monotone (div_nonneg hy hx'.le)
    simpa [Real.arctan_zero] using h0
  · rw [if_neg (by rw [← hx']; exact lt_irrefl 0),
      if_neg (by rw [← hx']; exact fun h => lt_irrefl 0 h.1),
      if_neg (by rw [← hx']; exact lt_irrefl 0)]
    rcases lt_or_eq_of_le hy with hy' | hy'
    · rw [if_pos hy']
      positivity
    · rw [if_neg (by rw [← hy']; exact lt_irrefl 0), if_neg (by rw [← hy']; exact lt_irrefl 0)]

lemma atan2_zero_one : atan2 0 1 = 0 := by
  unfold atan2
  rw [if_pos one_pos]
  simp [Real.arctan_zero]

/-- The distance from any point to itself is `0`. -/
lemma calculateDistance_self (p : ℝ × ℝ) : calculateDistance p p = 0 := by
  unfold calculateDistance haversineA
  simp [toRads, atan2_zero_one]

/-- The modelled Haversine distance is never negative. -/
lemma calculateDistance_nonneg (c1 c2 : ℝ × ℝ) : 0 ≤ calculateDistance c1 c2 := by
  unfold calculateDistance
  have h := atan2_nonneg (Real.sqrt_nonneg (haversineA c1 c2))
    (Real.sqrt_nonneg (1 - haversineA c1 c2))
  positivity

lemma toRads_neg (x : ℝ) : toRads (-x) = -toRads x := by
  unfold toRads; ring

lemma haversineA_symm (c1 c2 : ℝ × ℝ) : haversineA c1 c2 = haversineA c2 c1 := by
  unfold haversineA
  have h1 : c1.2 - c2.2 = -(c2.2 - c1.2) := by ring
  have h2 : c1.1 - c2.1 = -(c2.1 - c1.1) := by ring
  rw [h1, h2, toRads_neg, toRads_neg, neg_div, neg_div, Real.sin_neg, Real.sin_neg]
  ring

lemma haversineA_meridian (lng lat1 lat2 : ℝ) :
    haversineA (lng, lat1) (lng, lat2) =
      Real.sin (toRads (lat2 - lat1) / 2) * Real.sin (toRads (lat2 - lat1) / 2) := by
  unfold haversineA
  have h0 : Real.sin (toRads (lng - lng) / 2) = 0 := by simp [toRads]
  rw [h0]
  ring

/-- For two points on the same meridian whose latitude difference is at most
180°, `calculateDistance` is exactly `R` times the absolute latitude
difference in radians. -/
lemma calculateDistance_meridian (lng lat1 lat2 : ℝ)
    (h1 : -(Real.pi / 2) ≤ toRads (lat2 - lat1) / 2)
    (h2 : toRads (lat2 - lat1) / 2 ≤ Real.pi / 2) :
    calculateDistance (lng, lat1) (lng, lat2) = 6371 * |toRads (lat2 - lat1)| := by
  unfold calculateDistance
  rw [haversineA_meridian]
  set θ := toRads (lat2 - lat1) / 2 with hθ
  have h1a : 1 - Real.sin θ * Real.sin θ = Real.cos θ ^ 2 := by
    have h := Real.sin_sq_add_cos_sq θ
    nlinarith [h]
  have hcos_nonneg : 0 ≤ Real.cos θ := Real.cos_nonneg_of_mem_Icc ⟨h1, h2⟩
  have hsqa : Real.sqrt (Real.sin θ * Real.sin θ) = |Real.sin θ| := by
    rw [show Real.sin θ * Real.sin θ = Real.sin θ ^ 2 by ring, Real.sqrt_sq_eq_abs]
  have hsqb : Real.sqrt (1 - Real.sin θ * Real.sin θ) = Real.cos θ := by
    rw [h1a, Real.sqrt_sq_eq_abs, abs_of_nonneg hcos_nonneg]
  have habs_le : |θ| ≤ Real.pi / 2 := abs_le.mpr ⟨by linarith, h2⟩
  have hsin_abs : |Real.sin θ| = Real.sin |θ| := by
    rcases le_or_lt 0 θ with h | h
    · rw [abs_of_nonneg h,
        abs_of_nonneg (Real.sin_nonneg_of_nonneg_of_le_pi h (by linarith [Real.pi_pos]))]
    · have hnn : 0 ≤ Real.sin (-θ) :=
        Real.sin_nonneg_of_nonneg_of_le_pi (by linarith) (by linarith [Real.pi_pos])
      rw [abs_of_neg h]
      rw [show Real.sin θ = -Real.sin (-θ) by rw [Real.sin_neg]; ring]
      rw [abs_neg, abs_of_nonneg hnn]
  rw [hsqa, hsqb, hsin_abs]
  have habs2 : |toRads (lat2 - lat1)| = 2 * |θ| := by
    rw [hθ, abs_div, abs_two]
    ring
  rw [habs2]
  rcases lt_or_eq_of_le hcos_nonneg with hcpos | hczero
  · have habs_lt : |θ| < Real.pi / 2 := by
      rcases lt_or_eq_of_le habs_le with h | h
      · exact h
      · exfalso
        have : Real.cos |θ| = 0 := by rw [h, Real.cos_pi_div_two]
        rw [Real.cos_abs] at this
        linarith
    unfold atan2
    rw [if_pos hcpos, ← Real.cos_abs θ, ← Real.tan_eq_sin_div_cos,
      Real.arctan_tan (by linarith [abs_nonneg θ, Real.pi_pos]) habs_lt]
  · have habs_eq : |θ| = Real.pi / 2 := by
      rcases lt_or_eq_of_le habs_le with h | h
      · exfalso
        have hpos : 0 < Real.cos |θ| :=
          Real.cos_pos_of_mem_Ioo ⟨by linarith [abs_nonneg θ, Real.pi_pos], h⟩
        rw [Real.cos_abs] at hpos
        linarith
      · exact h
    rw [habs_eq, Real.sin_pi_div_two, ← hczero]
    unfold atan2
    rw [if_neg (lt_irrefl 0), if_neg (fun h => lt_irrefl 0 h.1), if_neg (lt_irrefl 0),
      if_pos one_pos]

/-! ## Data model

Projections of the Mongoose documents, restricted to the fields
`routeOptimizationService.js` reads. -/

/-- `vehicle.type` enum of the Driver schema. -/
inductive VehicleType where
  | motorcycle
  | car
  | van
  | truck
deriving DecidableEq

/-- The fields of `driver.vehicle` used by the service:
`vehicle.type` and `vehicle.capacity.weight`. -/
structure Vehicle where
  type : VehicleType
  capacityWeight : ℝ

/-- An order item; only `isFragile` is read. -/
structure Item where
  isFragile : Bool

/-- The fields of an order document used by the service. -/
structure Order where
  pickupCoordinates : ℝ × ℝ
  totalWeight : ℝ
  items : List Item

/-- The fields of a driver document used by the service.
`successRate` is a virtual that may be absent (`none` models
`undefined`); `activeDeliveries` only matters through its length. -/
structure Driver where
  id : ℕ
  userFirstName : String
  userLastName : String
  currentLocation : ℝ × ℝ
  ratingAverage : ℝ
  activeDeliveries : List ℕ
  maxDeliveries : ℝ
  vehicle : Vehicle
  successRate : Option ℝ

/-- The fields of a hub document used by `getOptimalHub`. -/
structure Hub where
  coordinates : ℝ × ℝ
  availableCapacity : ℝ
  maxOrders : ℝ

/-- JavaScript `v || d` for a numeric `v` that may be `undefined`:
`undefined`, `null` and `0` are falsy and yield the default. -/
noncomputable def jsOrDefault (v : Option ℝ) (d : ℝ) : ℝ :=
  match v with
  | none => d
  | some x => if x = 0 then d else x

/-! ## Scoring -/

/-- `getVehicleCompatibilityScore(vehicle, order)`: starts at 100, returns 0
outright when the order weight exceeds the vehicle capacity, subtracts 20
when weight utilization exceeds 0.8, adds 10 for fragile items on a car or
van, subtracts 30 for fragile items on a motorcycle, floors at 0. -/
noncomputable def getVehicleCompatibilityScore (vehicle : Vehicle) (order : Order) : ℝ :=
  let totalWeight := order.totalWeight
  let hasFragileItems := order.items.any (fun item => item.isFragile)
  if totalWeight > vehicle.capacityWeight then 0
  else
    let score1 := if totalWeight / vehicle.capacityWeight > 0.8 then (100 : ℝ) - 20 else 100
    let score2 :=
      if hasFragileItems = true ∧ (vehicle.type = VehicleType.car ∨ vehicle.type = VehicleType.van)
      then score1 + 10 else score1
    let score3 :=
      if hasFragileItems = true ∧ vehicle.type = VehicleType.motorcycle
      then score2 - 30 else score2
    max 0 score3

/-- `calculateDriverScore(driver, order)`: weighted sum of distance (40%),
rating (25%), remaining capacity (20%), vehicle compatibility (10%) and
success rate (5%), rounded with `Math.round`. -/
noncomputable def calculateDriverScore (driver : Driver) (order : Order) : ℤ :=
  let distance := calculateDistance driver.currentLocation order.pickupCoordinates
  let distanceScore := max 0 (100 - distance * 5)
  let ratingScore := driver.ratingAverage / 5 * 100
  let capacityScore :=
    (driver.maxDeliveries - (driver.activeDeliveries.length : ℝ)) / driver.maxDeliveries * 100
  let vehicleScore := getVehicleCompatibilityScore driver.vehicle order
  let successRate := jsOrDefault driver.successRate 100
  round (distanceScore * 0.4 + ratingScore * 0.25 + capacityScore * 0.2 +
    vehicleScore * 0.1 + successRate * 0.05)

/-- `estimatePickupTime(distance)`: `round(distance / 30 * 60 + 10)`. -/
noncomputable def estimatePickupTime (distance : ℝ) : ℤ :=
  round (distance / 30 * 60 + 10)

/-! ## Nearest-neighbor route optimization -/

/-- A delivery stop as consumed by `nearestNeighborOptimization`: the
algorithm only reads `.coordinates`; `name` tags the stop. -/
structure Stop where
  name : String
  coordinates : ℝ × ℝ

/-- The inner `for` loop of `nearestNeighborOptimization`: scan the
remaining stops from index `i`, keeping the first index whose distance
from `current` is strictly smaller than the best so far. -/
noncomputable def scanNearest (current : ℝ × ℝ) :
    List Stop → ℕ → ℕ → ℝ → ℕ × ℝ
  | [], _, bestIdx, bestDist => (bestIdx, bestDist)
  | s :: rest, i, bestIdx, bestDist =>
      if calculateDistance current s.coordinates < bestDist then
        scanNearest current rest (i + 1) i (calculateDistance current s.coordinates)
      else
        scanNearest current rest (i + 1) bestIdx bestDist

/-- The `while` loop of `nearestNeighborOptimization`, with the remaining
length of the remaining list as fuel (each iteration splices one stop out, so the initial
length is exactly enough).  Returns the route and the total distance. -/
noncomputable def nnLoop (current : ℝ × ℝ) (remaining : List Stop) :
    ℕ → List Stop × ℝ
  | 0 => ([], 0)
  | fuel + 1 =>
    match remaining with
    | [] => ([], 0)
    | s :: rest =>
        let scanned := scanNearest current rest 1 0 (calculateDistance current s.coordinates)
        let nearest := (s :: rest).getD scanned.1 s
        let rest' := nnLoop nearest.coordinates ((s :: rest).eraseIdx scanned.1) fuel
        (nearest :: rest'.1, scanned.2 + rest'.2)

/-- Result object of `nearestNeighborOptimization`. -/
structure RouteResult where
  route : List Stop
  totalDistance : ℝ
  estimatedTime : ℤ

/-- `nearestNeighborOptimization(deliveries, startPoint)`: greedy
nearest-neighbor sequencing; total distance is rounded to two decimals
(`Math.round(totalDistance * 100) / 100`, modelled exactly over `ℝ`). -/
noncomputable def nearestNeighborOptimization (deliveries : List Stop)
    (startPoint : ℝ × ℝ) : RouteResult :=
  let result := nnLoop startPoint deliveries deliveries.length
  { route := result.1
    totalDistance := (round (result.2 * 100) : ℝ) / 100
    estimatedTime := estimatePickupTime result.2 }

/-! ## Ranking (JavaScript stable sort with comparator `(a, b) => b.score - a.score`)

`Array.prototype.sort` is stable, and the comparator orders entries by
descending `score` only; a stable insertion sort on the same key produces
the identical list. -/

def insertDescBy {α β : Type} [LinearOrder β] (key : α → β) (x : α) :
    List α → List α
  | [] => [x]
  | y :: ys => if key y ≤ key x then x :: y :: ys else y :: insertDescBy key x ys

def sortDescBy {α β : Type} [LinearOrder β] (key : α → β) : List α → List α
  | [] => []
  | x :: xs => insertDescBy key x (sortDescBy key xs)

/-- An element of the `driverScores` array built by `findBestDriver`. -/
structure ScoredDriver where
  driver : Driver
  score : ℤ
  distance : ℝ

/-- One entry of `driverScores`: the driver, its score against the order,
and its distance to the pickup coordinates of the order. -/
noncomputable def scoreDriverEntry (order : Order) (driver : Driver) : ScoredDriver :=
  { driver := driver
    score := calculateDriverScore driver order
    distance := calculateDistance driver.currentLocation order.pickupCoordinates }

/-- The ranked candidate list of `findBestDriver`: score every driver of
the pool, then sort descending by score. -/
noncomputable def rankDrivers (order : Order) (pool : List Driver) : List ScoredDriver :=
  sortDescBy ScoredDriver.score (pool.map (scoreDriverEntry order))

/-- Result object of `findBestDriver`. -/
inductive FindDriverResult where
  | noDrivers (message : String)
  | assigned (driver : Driver) (score : ℤ) (distance : ℝ) (estimatedPickupTime : ℤ)
      (alternatives : List ScoredDriver)

/-- `findBestDriver(orderId)` after the external lookups have produced the
order and the available-driver pool.  An empty pool yields the
no-candidates object; otherwise the pool is scored, ranked, and the head
is returned with `driverScores.slice(1, 3)` as alternatives.  (The ranked
list of a nonempty pool is never empty — the second `noDrivers` arm is
unreachable; it mirrors the JS indexing `driverScores[0]`.) -/
noncomputable def findBestDriver (order : Order) (availableDrivers : List Driver) :
    FindDriverResult :=
  match availableDrivers with
  | [] => .noDrivers "No available drivers found in the area"
  | d :: ds =>
    match rankDrivers order (d :: ds) with
    | [] => .noDrivers "No available drivers found in the area"
    | best :: rest =>
        .assigned best.driver best.score best.distance
          (estimatePickupTime best.distance) (rest.take 2)

/-! ## Hub selection -/

/-- An element of the `hubScores` array built by `getOptimalHub`. -/
structure ScoredHub where
  hub : Hub
  score : ℝ
  distanceToPickup : ℝ
  distanceToDelivery : ℝ
  averageDistance : ℝ

/-- One entry of `hubScores`: 70% distance score (3 points of penalty per
average km), 30% capacity score. -/
noncomputable def scoreHubEntry (pickupCoords deliveryCoords : ℝ × ℝ) (hub : Hub) :
    ScoredHub :=
  let distanceToPickup := calculateDistance hub.coordinates pickupCoords
  let distanceToDelivery := calculateDistance hub.coordinates deliveryCoords
  let averageDistance := (distanceToPickup + distanceToDelivery) / 2
  let capacityScore := hub.availableCapacity / hub.maxOrders * 100
  let distanceScore := max 0 (100 - averageDistance * 3)
  { hub := hub
    score := distanceScore * 0.7 + capacityScore * 0.3
    distanceToPickup := distanceToPickup
    distanceToDelivery := distanceToDelivery
    averageDistance := averageDistance }

/-- Result object of `getOptimalHub`. -/
inductive HubResult where
  | noHubs (message : String)
  | recommended (hub : Hub) (score : ℝ) (alternatives : List ScoredHub)

/-- `getOptimalHub(pickupCoords, deliveryCoords)` after the external
`Hub.findAvailableHubs` query has produced the pool.  An empty pool yields
the no-candidates object; otherwise hubs are scored, ranked descending,
and the head is recommended with the next two as alternatives.  (As in
`findBestDriver`, the second `noHubs` arm is unreachable.) -/
noncomputable def getOptimalHub (pickupCoords deliveryCoords : ℝ × ℝ)
    (availableHubs : List Hub) : HubResult :=
  match availableHubs with
  | [] => .noHubs "No available hubs found"
  | h :: hs =>
    match sortDescBy ScoredHub.score
        ((h :: hs).map (scoreHubEntry pickupCoords deliveryCoords)) with
    | [] => .noHubs "No available hubs found"
    | best :: rest => .recommended best.hub best.score (rest.take 2)

/-! ## Batch assignment -/

/-- An element of `results.successful`. -/
structure AssignedEntry where
  orderId : ℕ
  driverId : ℕ
  driverName : String
  score : ℤ
  distance : ℝ

/-- An element of `results.failed`. -/
structure FailedEntry where
  orderId : ℕ
  reason : String

/-- The `results` object of `batchAssignOrders` (summary fields flattened). -/
structure BatchResults where
  successful : List AssignedEntry
  failed : List FailedEntry
  total : ℕ
  assigned : ℕ
  unassigned : ℕ

/-- One iteration of the `for` loop of `batchAssignOrders`.  `fetch` is the
external world behind the lookups of `findBestDriver` (`Order.findById` and
`Driver.findAvailableDrivers`); a thrown error is the `.error` case and is
caught and recorded as a failure for this order only. -/
noncomputable def batchStep (fetch : ℕ → Except String (Order × List Driver))
    (acc : BatchResults) (orderId : ℕ) : BatchResults :=
  match fetch orderId with
  | .error e =>
      { acc with
        failed := acc.failed ++ [⟨orderId, e⟩]
        unassigned := acc.unassigned + 1 }
  | .ok (order, pool) =>
      match findBestDriver order pool with
      | .assigned driver score distance _ _ =>
          { acc with
            successful := acc.successful ++
              [⟨orderId, driver.id,
                driver.userFirstName ++ " " ++ driver.userLastName, score, distance⟩]
            assigned := acc.assigned + 1 }
      | .noDrivers msg =>
          { acc with
            failed := acc.failed ++ [⟨orderId, msg⟩]
            unassigned := acc.unassigned + 1 }

/-- `batchAssignOrders(orderIds)`: sequential fold over the order IDs;
`summary.total` is set to `orderIds.length` up front. -/
noncomputable def batchAssignOrders (fetch : ℕ → Except String (Order × List Driver))
    (orderIds : List ℕ) : BatchResults :=
  orderIds.foldl (batchStep fetch) ⟨[], [], orderIds.length, 0, 0⟩

/-! ## Helper lemmas -/

lemma calculateDistance_symm (a b : ℝ × ℝ) :
    calculateDistance a b = calculateDistance b a := by
  unfold calculateDistance
  rw [haversineA_symm]

/-- Distance between two points of the same longitude with
`0 ≤ lat2 - lat1 ≤ 180`, in closed form. -/
lemma dist_lat (lat1 lat2 : ℝ) (h1 : 0 ≤ lat2 - lat1) (h2 : lat2 - lat1 ≤ 180) :
    calculateDistance (0, lat1) (0, lat2) = 6371 * ((lat2 - lat1) * (Real.pi / 180)) := by
  have hπ := Real.pi_pos
  have hrads : toRads (lat2 - lat1) = (lat2 - lat1) * (Real.pi / 180) := rfl
  rw [calculateDistance_meridian 0 lat1 lat2 (by rw [hrads]; nlinarith) (by rw [hrads]; nlinarith)]
  rw [hrads, abs_of_nonneg (by positivity)]

lemma getVehicleCompatibilityScore_le (vehicle : Vehicle) (order : Order) :
    getVehicleCompatibilityScore vehicle order ≤ 110 := by
  simp only [getVehicleCompatibilityScore]
  split_ifs <;> norm_num [max_le_iff]

lemma getVehicleCompatibilityScore_nonneg (vehicle : Vehicle) (order : Order) :
    0 ≤ getVehicleCompatibilityScore vehicle order := by
  simp only [getVehicleCompatibilityScore]
  split_ifs <;> norm_num [le_max_iff]

/-! ## Claims -/

/-- C9: the Haversine distance is symmetric, `calculateDistance(a, b) =
calculateDistance(b, a)` for all coordinate pairs. -/
theorem C9_distance_symmetric (a b : ℝ × ℝ) :
    calculateDistance a b = calculateDistance b a :=
  calculateDistance_symm a b

/-- C8: an empty externally supplied candidate pool makes `findBestDriver`
and `getOptimalHub` return an explicit no-candidates result (success false
with a message) instead of raising. -/
theorem C8_empty_pool_no_candidates :
    (∀ order : Order, findBestDriver order [] =
      FindDriverResult.noDrivers "No available drivers found in the area") ∧
    (∀ pickupCoords deliveryCoords : ℝ × ℝ, getOptimalHub pickupCoords deliveryCoords [] =
      HubResult.noHubs "No available hubs found") :=
  ⟨fun _ => rfl, fun _ _ => rfl⟩

/-- C5: whenever the order weight exceeds the vehicle weight capacity,
`getVehicleCompatibilityScore` returns 0 regardless of every other factor. -/
theorem C5_overweight_scores_zero (vehicle : Vehicle) (order : Order)
    (h : order.totalWeight > vehicle.capacityWeight) :
    getVehicleCompatibilityScore vehicle order = 0 := by
  simp only [getVehicleCompatibilityScore]
  rw [if_pos h]

/-- Witness for C5: a 2 kg order on a 1 kg-capacity motorcycle carrying a
fragile item scores 0. -/
theorem C5_overweight_scores_zero_witness :
    (2 : ℝ) > 1 ∧
    getVehicleCompatibilityScore ⟨VehicleType.motorcycle, 1⟩ ⟨(0, 0), 2, [⟨true⟩]⟩ = 0 :=
  ⟨by norm_num,
    C5_overweight_scores_zero ⟨VehicleType.motorcycle, 1⟩ ⟨(0, 0), 2, [⟨true⟩]⟩ (by norm_num)⟩

lemma round_eq_int (x : ℝ) (n : ℤ) (h1 : (n : ℝ) ≤ x + 1 / 2) (h2 : x + 1 / 2 < (n : ℝ) + 1) :
    round x = n := by
  rw [round_eq]
  exact Int.floor_eq_iff.mpr ⟨by exact_mod_cast h1, by exact_mod_cast h2⟩

/-- C4: a driver at distance 0 from the pickup, rating average 5, zero
active deliveries, positive `maxDeliveries`, vehicle-compatibility score
100 and a 100% success rate scores exactly 100. -/
theorem C4_perfect_driver_scores_100 (driver : Driver) (order : Order)
    (hdist : calculateDistance driver.currentLocation order.pickupCoordinates = 0)
    (hrating : driver.ratingAverage = 5)
    (hactive : driver.activeDeliveries = [])
    (hmax : 0 < driver.maxDeliveries)
    (hcompat : getVehicleCompatibilityScore driver.vehicle order = 100)
    (hsuccess : driver.successRate = some 100) :
    calculateDriverScore driver order = 100 := by
  simp only [calculateDriverScore]
  rw [hdist, hrating, hactive, hcompat, hsuccess]
  have hcapacity :
      (driver.maxDeliveries - ((List.length ([] : List ℕ) : ℕ) : ℝ)) / driver.maxDeliveries = 1 := by
    simp [div_self (ne_of_gt hmax)]
  rw [List.length_nil] at hcapacity ⊢
  rw [hcapacity]
  rw [show (100 : ℝ) - 0 * 5 = 100 by ring, max_eq_right (by norm_num : (0 : ℝ) ≤ 100)]
  simp only [jsOrDefault]
  apply round_eq_int
  · norm_num
  · norm_num

/-- Concrete perfect driver and order for the C4 witness. -/
noncomputable def c4Order : Order := ⟨(0, 0), 1, []⟩

noncomputable def c4Driver : Driver :=
  ⟨3, "C", "D", (0, 0), 5, [], 2, ⟨VehicleType.van, 10⟩, some 100⟩

/-- Witness for C4: the concrete perfect driver satisfies every hypothesis
and scores exactly 100. -/
theorem C4_perfect_driver_scores_100_witness :
    calculateDistance c4Driver.currentLocation c4Order.pickupCoordinates = 0 ∧
    c4Driver.ratingAverage = 5 ∧
    c4Driver.activeDeliveries = [] ∧
    0 < c4Driver.maxDeliveries ∧
    getVehicleCompatibilityScore c4Driver.vehicle c4Order = 100 ∧
    c4Driver.successRate = some 100 ∧
    calculateDriverScore c4Driver c4Order = 100 := by
  have h1 : calculateDistance c4Driver.currentLocation c4Order.pickupCoordinates = 0 :=
    calculateDistance_self (0, 0)
  have h4 : (0 : ℝ) < c4Driver.maxDeliveries := by norm_num [c4Driver]
  have h5 : getVehicleCompatibilityScore c4Driver.vehicle c4Order = 100 := by
    simp [getVehicleCompatibilityScore, c4Driver, c4Order]
    norm_num
  exact ⟨h1, rfl, rfl, h4, h5, rfl,
    C4_perfect_driver_scores_100 c4Driver c4Order h1 rfl rfl h4 h5 rfl⟩

/-- Concrete admissible driver and fragile order for C1: distance 0,
rating 5, no active deliveries, success rate 100, fragile 1 kg order on a
10 kg-capacity car (utilization 0.1 ≤ 0.8). -/
noncomputable def c1Order : Order := ⟨(31, 30), 1, [⟨true⟩]⟩

noncomputable def c1Driver : Driver :=
  ⟨5, "E", "F", (31, 30), 5, [], 2, ⟨VehicleType.car, 10⟩, some 100⟩

/-- C1: no final clamp to 100 is applied — for the admissible pair above
the vehicle-compatibility term is 110 and `calculateDriverScore` returns
101, strictly greater than 100. -/
theorem C1_no_final_clamp :
    getVehicleCompatibilityScore c1Driver.vehicle c1Order = 110 ∧
    calculateDriverScore c1Driver c1Order = 101 ∧
    100 < calculateDriverScore c1Driver c1Order := by
  have hcompat : getVehicleCompatibilityScore c1Driver.vehicle c1Order = 110 := by
    simp [getVehicleCompatibilityScore, c1Driver, c1Order]
    norm_num
  have hdist : calculateDistance c1Driver.currentLocation c1Order.pickupCoordinates = 0 :=
    calculateDistance_self (31, 30)
  have hscore : calculateDriverScore c1Driver c1Order = 101 := by
    simp only [calculateDriverScore]
    rw [hdist, hcompat]
    simp only [c1Driver, c1Order, List.length_nil, jsOrDefault]
    rw [show (100 : ℝ) - 0 * 5 = 100 by ring, max_eq_right (by norm_num : (0 : ℝ) ≤ 100)]
    apply round_eq_int
    · norm_num
    · norm_num
  exact ⟨hcompat, hscore, by rw [hscore]; norm_num⟩

lemma round_le_of_le (x : ℝ) (n : ℤ) (h : x ≤ (n : ℝ)) : round x ≤ n := by
  rw [round_eq]
  have h1 : ⌊x + 1 / 2⌋ ≤ ⌊(n : ℝ) + 1 / 2⌋ := Int.floor_le_floor (by linarith)
  have h2 : ⌊(n : ℝ) + 1 / 2⌋ = n := by
    rw [Int.floor_eq_iff]
    constructor
    · linarith
    · linarith
  omega

/-- C10: under admissible inputs (rating in [0,5], active deliveries at
most `maxDeliveries`, positive `maxDeliveries`, success rate in [0,100]
when present), `calculateDriverScore` never exceeds 101: the
vehicle-compatibility term is bounded by 110 and every other component by
100, so the weighted sum is at most 101. -/
theorem C10_score_bounded (driver : Driver) (order : Order)
    (hr0 : 0 ≤ driver.ratingAverage) (hr5 : driver.ratingAverage ≤ 5)
    (hcap : ((driver.activeDeliveries.length : ℕ) : ℝ) ≤ driver.maxDeliveries)
    (hmax : 0 < driver.maxDeliveries)
    (hsr : ∀ s : ℝ, driver.successRate = some s → 0 ≤ s ∧ s ≤ 100) :
    calculateDriverScore driver order ≤ 101 := by
  simp only [calculateDriverScore]
  set d := calculateDistance driver.currentLocation order.pickupCoordinates with hd
  have hd0 : 0 ≤ d := calculateDistance_nonneg _ _
  have h1 : max 0 (100 - d * 5) ≤ 100 := by
    rw [max_le_iff]
    constructor <;> nlinarith
  have h2 : driver.ratingAverage / 5 * 100 ≤ 100 := by nlinarith
  have h3 : (driver.maxDeliveries - (driver.activeDeliveries.length : ℝ)) /
      driver.maxDeliveries * 100 ≤ 100 := by
    rw [div_mul_eq_mul_div, div_le_iff₀ hmax]
    have hlen : (0 : ℝ) ≤ (driver.activeDeliveries.length : ℝ) := Nat.cast_nonneg _
    nlinarith
  have h4 := getVehicleCompatibilityScore_le driver.vehicle order
  have h5 : jsOrDefault driver.successRate 100 ≤ 100 := by
    rcases hv : driver.successRate with _ | s
    · simp [jsOrDefault]
    · obtain ⟨_, hs2⟩ := hsr s hv
      simp only [jsOrDefault]
      split_ifs
      · norm_num
      · exact hs2
  apply round_le_of_le
  push_cast
  linarith

/-- Concrete admissible driver and order for the C10 witness. -/
noncomputable def c10Order : Order := ⟨(10, 20), 3, [⟨false⟩]⟩

noncomputable def c10Driver : Driver :=
  ⟨8, "G", "H", (10, 21), 4, [1], 3, ⟨VehicleType.truck, 100⟩, some 95⟩

/-- Witness for C10: a concrete admissible driver satisfies every
hypothesis and its score is at most 101. -/
theorem C10_score_bounded_witness :
    (0 ≤ c10Driver.ratingAverage ∧ c10Driver.ratingAverage ≤ 5 ∧
      ((c10Driver.activeDeliveries.length : ℕ) : ℝ) ≤ c10Driver.maxDeliveries ∧
      0 < c10Driver.maxDeliveries ∧
      (∀ s : ℝ, c10Driver.successRate = some s → 0 ≤ s ∧ s ≤ 100)) ∧
    calculateDriverScore c10Driver c10Order ≤ 101 := by
  have ha : (0 : ℝ) ≤ c10Driver.ratingAverage := by norm_num [c10Driver]
  have hb : c10Driver.ratingAverage ≤ 5 := by norm_num [c10Driver]
  have hc : ((c10Driver.activeDeliveries.length : ℕ) : ℝ) ≤ c10Driver.maxDeliveries := by
    norm_num [c10Driver]
  have hd : (0 : ℝ) < c10Driver.maxDeliveries := by norm_num [c10Driver]
  have he : ∀ s : ℝ, c10Driver.successRate = some s → 0 ≤ s ∧ s ≤ 100 := by
    intro s hs
    simp only [c10Driver, Option.some.injEq] at hs
    constructor <;> rw [← hs] <;> norm_num
  exact ⟨⟨ha, hb, hc, hd, he⟩, C10_score_bounded c10Driver c10Order ha hb hc hd he⟩

/-- Each iteration of `batchAssignOrders` leaves `total` unchanged and
extends exactly one of the two result lists, bumping the matching counter. -/
lemma batchStep_shape (fetch : ℕ → Except String (Order × List Driver))
    (acc : BatchResults) (orderId : ℕ) :
    (batchStep fetch acc orderId).total = acc.total ∧
    (((batchStep fetch acc orderId).successful.length = acc.successful.length + 1 ∧
      (batchStep fetch acc orderId).failed = acc.failed ∧
      (batchStep fetch acc orderId).assigned = acc.assigned + 1 ∧
      (batchStep fetch acc orderId).unassigned = acc.unassigned) ∨
     ((batchStep fetch acc orderId).successful = acc.successful ∧
      (batchStep fetch acc orderId).failed.length = acc.failed.length + 1 ∧
      (batchStep fetch acc orderId).assigned = acc.assigned ∧
      (batchStep fetch acc orderId).unassigned = acc.unassigned + 1)) := by
  unfold batchStep
  split
  · exact ⟨rfl, Or.inr ⟨rfl, by simp, rfl, rfl⟩⟩
  · split
    · exact ⟨rfl, Or.inl ⟨by simp, rfl, rfl, rfl⟩⟩
    · exact ⟨rfl, Or.inr ⟨rfl, by simp, rfl, rfl⟩⟩

lemma batch_foldl_invariant (fetch : ℕ → Except String (Order × List Driver)) :
    ∀ (ids : List ℕ) (acc : BatchResults),
      acc.assigned = acc.successful.length →
      acc.unassigned = acc.failed.length →
      (ids.foldl (batchStep fetch) acc).assigned =
          (ids.foldl (batchStep fetch) acc).successful.length ∧
      (ids.foldl (batchStep fetch) acc).unassigned =
          (ids.foldl (batchStep fetch) acc).failed.length ∧
      (ids.foldl (batchStep fetch) acc).successful.length +
          (ids.foldl (batchStep fetch) acc).failed.length =
        acc.successful.length + acc.failed.length + ids.length ∧
      (ids.foldl (batchStep fetch) acc).total = acc.total := by
  intro ids
  induction ids with
  | nil =>
      intro acc h1 h2
      exact ⟨h1, h2, by simp, rfl⟩
  | cons id rest ih =>
      intro acc h1 h2
      obtain ⟨ht, hcase⟩ := batchStep_shape fetch acc id
      have hstep : ∀ p : BatchResults, p = batchStep fetch acc id →
          p.assigned = p.successful.length ∧ p.unassigned = p.failed.length ∧
          p.successful.length + p.failed.length =
            acc.successful.length + acc.failed.length + 1 := by
        intro p hp
        subst hp
        rcases hcase with ⟨ha, hb, hc, hd⟩ | ⟨ha, hb, hc, hd⟩
        · exact ⟨by rw [hc, ha, h1], by rw [hd, hb, h2], by rw [ha, hb]; omega⟩
        · exact ⟨by rw [hc, ha, h1], by rw [hd, hb, h2], by rw [ha, hb]; omega⟩
      obtain ⟨k1, k2, k3⟩ := hstep (batchStep fetch acc id) rfl
      obtain ⟨m1, m2, m3, m4⟩ := ih (batchStep fetch acc id) k1 k2
      refine ⟨by simpa using m1, by simpa using m2, ?_, by simpa [ht] using m4⟩
      have : (rest.foldl (batchStep fetch) (batchStep fetch acc id)).successful.length +
          (rest.foldl (batchStep fetch) (batchStep fetch acc id)).failed.length =
          (batchStep fetch acc id).successful.length +
            (batchStep fetch acc id).failed.length + rest.length := m3
      simp only [List.foldl_cons, List.length_cons]
      omega

/-- C7: `batchAssignOrders` over N order IDs yields exactly N per-order
results — `successful` and `failed` together contain one entry per input
ID, the summary counters match the lists, `total = N`, and
`assigned + unassigned = total` — for every behaviour of the external
lookups, including ones that fail on some orders (a per-order failure is
recorded without aborting the rest). -/
theorem C7_batch_counts (fetch : ℕ → Except String (Order × List Driver))
    (orderIds : List ℕ) :
    (batchAssignOrders fetch orderIds).successful.length +
        (batchAssignOrders fetch orderIds).failed.length = orderIds.length ∧
    (batchAssignOrders fetch orderIds).assigned =
        (batchAssignOrders fetch orderIds).successful.length ∧
    (batchAssignOrders fetch orderIds).unassigned =
        (batchAssignOrders fetch orderIds).failed.length ∧
    (batchAssignOrders fetch orderIds).total = orderIds.length ∧
    (batchAssignOrders fetch orderIds).assigned +
        (batchAssignOrders fetch orderIds).unassigned =
      (batchAssignOrders fetch orderIds).total := by
  obtain ⟨h1, h2, h3, h4⟩ :=
    batch_foldl_invariant fetch orderIds ⟨[], [], orderIds.length, 0, 0⟩ rfl rfl
  have h1a : (batchAssignOrders fetch orderIds).assigned =
      (batchAssignOrders fetch orderIds).successful.length := by
    simpa [batchAssignOrders] using h1
  have h2a : (batchAssignOrders fetch orderIds).unassigned =
      (batchAssignOrders fetch orderIds).failed.length := by
    simpa [batchAssignOrders] using h2
  have h3a : (batchAssignOrders fetch orderIds).successful.length +
      (batchAssignOrders fetch orderIds).failed.length = orderIds.length := by
    simpa [batchAssignOrders] using h3
  have h4a : (batchAssignOrders fetch orderIds).total = orderIds.length := by
    simpa [batchAssignOrders] using h4
  exact ⟨h3a, h1a, h2a, h4a, by rw [h1a, h2a, h4a]; exact h3a⟩

/-- The scan of the inner loop returns an index strictly below `i` plus the
number of stops still to scan, provided the incoming best index already is. -/
lemma scanNearest_fst_lt (current : ℝ × ℝ) :
    ∀ (l : List Stop) (i bestIdx : ℕ) (bestDist : ℝ), bestIdx < i →
      (scanNearest current l i bestIdx bestDist).1 < i + l.length := by
  intro l
  induction l with
  | nil =>
      intro i bi bd h
      simpa [scanNearest] using h
  | cons s rest ih =>
      intro i bi bd h
      simp only [scanNearest]
      split_ifs
      · have h2 := ih (i + 1) i (calculateDistance current s.coordinates) (Nat.lt_succ_self i)
        simp only [List.length_cons]
        omega
      · have h2 := ih (i + 1) bi bd (by omega)
        simp only [List.length_cons]
        omega

/-- Splicing the element at a valid index out of a list and putting it in
front is a permutation of the list. -/
lemma getD_cons_eraseIdx_perm {α : Type} :
    ∀ (l : List α) (i : ℕ) (d : α), i < l.length →
      (l.getD i d :: l.eraseIdx i).Perm l := by
  intro l
  induction l with
  | nil =>
      intro i d h
      simp at h
  | cons x xs ih =>
      intro i d h
      cases i with
      | zero => simp [List.getD]
      | succ n =>
          have hn : n < xs.length := by simpa using h
          have hperm := ih n d hn
          have e1 : List.getD (x :: xs) (n + 1) d :: (x :: xs).eraseIdx (n + 1)
              = xs.getD n d :: x :: xs.eraseIdx n := by simp [List.getD]
          rw [e1]
          exact (List.Perm.swap x (xs.getD n d) (xs.eraseIdx n)).trans (hperm.cons x)

/-- The route built by `nnLoop` with enough fuel is a permutation of the
remaining stops. -/
lemma nnLoop_perm :
    ∀ (fuel : ℕ) (current : ℝ × ℝ) (remaining : List Stop),
      remaining.length ≤ fuel → ((nnLoop current remaining fuel).1).Perm remaining := by
  intro fuel
  induction fuel with
  | zero =>
      intro c r h
      have : r = [] := List.length_eq_zero.mp (Nat.le_zero.mp h)
      subst this
      simp [nnLoop]
  | succ n ih =>
      intro c r h
      match r with
      | [] => simp [nnLoop]
      | s :: rest =>
          simp only [nnLoop]
          have hidx :
              (scanNearest c rest 1 0 (calculateDistance c s.coordinates)).1 <
                (s :: rest).length := by
            have := scanNearest_fst_lt c rest 1 0 (calculateDistance c s.coordinates)
              (by omega)
            simpa [Nat.add_comm] using this
          have hlen :
              ((s :: rest).eraseIdx
                  (scanNearest c rest 1 0 (calculateDistance c s.coordinates)).1).length
                = rest.length := by
            rw [List.length_eraseIdx_of_lt hidx]
            simp
          have hrec := ih (((s :: rest).getD
              (scanNearest c rest 1 0 (calculateDistance c s.coordinates)).1 s).coordinates)
            ((s :: rest).eraseIdx
              (scanNearest c rest 1 0 (calculateDistance c s.coordinates)).1)
            (by rw [hlen]; simpa using h)
          exact (hrec.cons _).trans (getD_cons_eraseIdx_perm _ _ _ hidx)

/-- C6: for every list of delivery stops and every start point, the route
returned by `nearestNeighborOptimization` is a permutation of the input
stop list (same multiset, hence same length). -/
theorem C6_route_is_permutation (deliveries : List Stop) (startPoint : ℝ × ℝ) :
    ((nearestNeighborOptimization deliveries startPoint).route).Perm deliveries ∧
    (nearestNeighborOptimization deliveries startPoint).route.length = deliveries.length := by
  have h := nnLoop_perm deliveries.length startPoint deliveries le_rfl
  exact ⟨h, h.length_eq⟩

/-! ## The C2 scenario: stops A(0,0), B(0,10), C(0,5), start (0,0). -/

noncomputable def stopA : Stop := ⟨"A", (0, 0)⟩

noncomputable def stopB : Stop := ⟨"B", (0, 10)⟩

noncomputable def stopC : Stop := ⟨"C", (0, 5)⟩

/-- Evaluating the greedy loop on the C2 scenario: the stop at the start
point itself (A, distance 0) is visited first, then C (5° away), then B. -/
lemma nn_route_scenario :
    (nearestNeighborOptimization [stopA, stopB, stopC] (0, 0)).route =
      [stopA, stopC, stopB] := by
  have hpi := Real.pi_pos
  have hAA : calculateDistance ((0 : ℝ), (0 : ℝ)) ((0 : ℝ), (0 : ℝ)) = 0 :=
    calculateDistance_self (0, 0)
  have hAB : calculateDistance ((0 : ℝ), (0 : ℝ)) ((0 : ℝ), (10 : ℝ)) =
      6371 * ((10 - 0) * (Real.pi / 180)) := dist_lat 0 10 (by norm_num) (by norm_num)
  have hAC : calculateDistance ((0 : ℝ), (0 : ℝ)) ((0 : ℝ), (5 : ℝ)) =
      6371 * ((5 - 0) * (Real.pi / 180)) := dist_lat 0 5 (by norm_num) (by norm_num)
  have hCB : calculateDistance ((0 : ℝ), (5 : ℝ)) ((0 : ℝ), (10 : ℝ)) =
      6371 * ((10 - 5) * (Real.pi / 180)) := dist_lat 5 10 (by norm_num) (by norm_num)
  have hc1 : ¬ (calculateDistance ((0 : ℝ), (0 : ℝ)) ((0 : ℝ), (10 : ℝ)) <
      calculateDistance ((0 : ℝ), (0 : ℝ)) ((0 : ℝ), (0 : ℝ))) := by
    rw [hAB, hAA]
    push_neg
    positivity
  have hc2 : ¬ (calculateDistance ((0 : ℝ), (0 : ℝ)) ((0 : ℝ), (5 : ℝ)) <
      calculateDistance ((0 : ℝ), (0 : ℝ)) ((0 : ℝ), (0 : ℝ))) := by
    rw [hAC, hAA]
    push_neg
    positivity
  have hc3 : calculateDistance ((0 : ℝ), (0 : ℝ)) ((0 : ℝ), (5 : ℝ)) <
      calculateDistance ((0 : ℝ), (0 : ℝ)) ((0 : ℝ), (10 : ℝ)) := by
    rw [hAC, hAB]
    nlinarith
  simp only [Prod.mk_zero_zero] at hAA hAB hAC hCB hc1 hc2 hc3
  simp [nearestNeighborOptimization, nnLoop, scanNearest, stopA, stopB, stopC,
    hc1, hc2, hc3, List.getD]

/-- C2 counterexample: on stops [A(0,0), B(0,10), C(0,5)] with start (0,0)
the sequencer does NOT return [C, B] — stop A is itself an input stop, is
at distance 0 from the start, and is visited first. -/
theorem C2_counterexample :
    (nearestNeighborOptimization [stopA, stopB, stopC] (0, 0)).route ≠
      [stopC, stopB] := by
  rw [nn_route_scenario]
  intro h
  simpa using congrArg List.length h

/-- C2 amended: on stops [A(0,0), B(0,10), C(0,5)] with start (0,0) the
nearest-neighbor sequencer returns the visiting order [A, C, B] (A at
distance 0 first, then C at 5°, then B). -/
theorem C2_route_order :
    (nearestNeighborOptimization [stopA, stopB, stopC] (0, 0)).route =
      [stopA, stopC, stopB] :=
  nn_route_scenario

/-! ## C3: ordering of the ranked candidate list -/

lemma mem_insertDescBy {α β : Type} [LinearOrder β] (key : α → β) (x : α) :
    ∀ (l : List α) (z : α), z ∈ insertDescBy key x l → z = x ∨ z ∈ l := by
  intro l
  induction l with
  | nil =>
      intro z hz
      simp only [insertDescBy, List.mem_singleton] at hz
      exact Or.inl hz
  | cons y ys ih =>
      intro z hz
      simp only [insertDescBy] at hz
      split_ifs at hz
      · rcases List.mem_cons.mp hz with h | h
        · exact Or.inl h
        · exact Or.inr h
      · rcases List.mem_cons.mp hz with h | h
        · exact Or.inr (h ▸ List.mem_cons_self y ys)
        · rcases ih z h with h2 | h2
          · exact Or.inl h2
          · exact Or.inr (List.mem_cons_of_mem y h2)

lemma pairwise_insertDescBy {α β : Type} [LinearOrder β] (key : α → β) (x : α) :
    ∀ l : List α, l.Pairwise (fun a b => key b ≤ key a) →
      (insertDescBy key x l).Pairwise (fun a b => key b ≤ key a) := by
  intro l
  induction l with
  | nil =>
      intro _
      simp [insertDescBy]
  | cons y ys ih =>
      intro hp
      rw [List.pairwise_cons] at hp
      obtain ⟨hy, hys⟩ := hp
      simp only [insertDescBy]
      split_ifs with hxy
      · rw [List.pairwise_cons]
        refine ⟨?_, ?_⟩
        · intro z hz
          rcases List.mem_cons.mp hz with rfl | hz2
          · exact hxy
          · exact le_trans (hy z hz2) hxy
        · rw [List.pairwise_cons]
          exact ⟨hy, hys⟩
      · rw [List.pairwise_cons]
        refine ⟨?_, ih hys⟩
        intro z hz
        rcases mem_insertDescBy key x (ys) z hz with rfl | hz2
        · exact le_of_not_le hxy
        · exact hy z hz2

lemma pairwise_sortDescBy {α β : Type} [LinearOrder β] (key : α → β) :
    ∀ l : List α, (sortDescBy key l).Pairwise (fun a b => key b ≤ key a) := by
  intro l
  induction l with
  | nil => simp [sortDescBy]
  | cons x xs ih => exact pairwise_insertDescBy key x _ ih

/-- Inserting `x` leaves every element it passes over with a strictly
larger key, so among the elements selected by a predicate that is false on
keys above `key x` and true on `x`, `x` lands first and the rest keep
their order. -/
lemma filter_insertDescBy_eq {α β : Type} [LinearOrder β] (key : α → β) (x : α)
    (p : α → Bool) (hx : p x = true) (hp : ∀ y, key x < key y → p y = false) :
    ∀ l : List α, (insertDescBy key x l).filter p = x :: l.filter p := by
  intro l
  induction l with
  | nil => simp [insertDescBy, hx]
  | cons y ys ih =>
      simp only [insertDescBy]
      split_ifs with hxy
      · simp [List.filter_cons, hx]
      · have hpy : p y = false := hp y (lt_of_not_le hxy)
        simp only [List.filter_cons, hpy]
        exact ih

/-- Inserting an element the predicate rejects does not change the
filtered list. -/
lemma filter_insertDescBy_ne {α β : Type} [LinearOrder β] (key : α → β) (x : α)
    (p : α → Bool) (hx : p x = false) :
    ∀ l : List α, (insertDescBy key x l).filter p = l.filter p := by
  intro l
  induction l with
  | nil => simp [insertDescBy, hx]
  | cons y ys ih =>
      simp only [insertDescBy]
      split_ifs with hxy
      · simp [List.filter_cons, hx]
      · simp only [List.filter_cons]
        rw [ih]

/-- Stability of the descending insertion sort: for every key value `s`,
the elements whose key is `s` appear in the sorted list exactly as they
appear in the input. -/
lemma filter_sortDescBy {α β : Type} [LinearOrder β] (key : α → β) (s : β) :
    ∀ l : List α,
      (sortDescBy key l).filter (fun a => key a == s) = l.filter (fun a => key a == s) := by
  intro l
  induction l with
  | nil => rfl
  | cons x xs ih =>
      simp only [sortDescBy]
      by_cases hx : key x = s
      · rw [filter_insertDescBy_eq key x (fun a => key a == s) (by simp [hx])
          (fun y hy => by
            rw [beq_eq_false_iff_ne]
            intro h
            rw [hx, ← h] at hy
            exact lt_irrefl (key y) hy),
          ih]
        simp [List.filter_cons, hx]
      · rw [filter_insertDescBy_ne key x (fun a => key a == s)
          (by simp [hx]), ih]
        simp [List.filter_cons, hx]

/-- C3 amended: in the ranked candidate list produced by `findBestDriver`
(the best driver followed by the alternatives), drivers appear in
descending order of score, and drivers with equal scores keep the order of
the externally supplied pool — for every score value `s`, the ranked
entries with score `s` are exactly the scored pool entries with score `s`
in their original order.  No distance tie-break is applied. -/
theorem C3_ranked_descending_stable (order : Order) (pool : List Driver) :
    (rankDrivers order pool).Pairwise (fun a b => b.score ≤ a.score) ∧
    ∀ s : ℤ, (rankDrivers order pool).filter (fun a => a.score == s) =
      (pool.map (scoreDriverEntry order)).filter (fun a => a.score == s) :=
  ⟨pairwise_sortDescBy ScoredDriver.score _,
    fun s => filter_sortDescBy ScoredDriver.score s _⟩

/-- Order and drivers realizing a score tie: both drivers are identical
except for their distance to the pickup (0.002° vs 0.001° of latitude,
both rounding to a score of 100), and the farther driver comes first in
the externally supplied pool. -/
noncomputable def tieOrder : Order := ⟨(0, 0), 1, []⟩

noncomputable def tieDriverFar : Driver :=
  ⟨1, "P", "Far", (0, 0.002), 5, [], 1, ⟨VehicleType.car, 10⟩, some 100⟩

noncomputable def tieDriverNear : Driver :=
  ⟨2, "Q", "Near", (0, 0.001), 5, [], 1, ⟨VehicleType.car, 10⟩, some 100⟩

lemma tie_dist_far :
    calculateDistance tieDriverFar.currentLocation tieOrder.pickupCoordinates =
      6371 * ((0.002 - 0) * (Real.pi / 180)) := by
  have h1 : tieDriverFar.currentLocation = ((0 : ℝ), (0.002 : ℝ)) := rfl
  have h2 : tieOrder.pickupCoordinates = ((0 : ℝ), (0 : ℝ)) := rfl
  rw [h1, h2, calculateDistance_symm]
  exact dist_lat 0 0.002 (by norm_num) (by norm_num)

lemma tie_dist_near :
    calculateDistance tieDriverNear.currentLocation tieOrder.pickupCoordinates =
      6371 * ((0.001 - 0) * (Real.pi / 180)) := by
  have h1 : tieDriverNear.currentLocation = ((0 : ℝ), (0.001 : ℝ)) := rfl
  have h2 : tieOrder.pickupCoordinates = ((0 : ℝ), (0 : ℝ)) := rfl
  rw [h1, h2, calculateDistance_symm]
  exact dist_lat 0 0.001 (by norm_num) (by norm_num)

lemma tie_compat_far : getVehicleCompatibilityScore tieDriverFar.vehicle tieOrder = 100 := by
  have hv : tieDriverFar.vehicle = ⟨VehicleType.car, 10⟩ := rfl
  rw [hv]
  simp [getVehicleCompatibilityScore, tieOrder]
  norm_num

lemma tie_compat_near : getVehicleCompatibilityScore tieDriverNear.vehicle tieOrder = 100 := by
  have hv : tieDriverNear.vehicle = ⟨VehicleType.car, 10⟩ := rfl
  rw [hv]
  simp [getVehicleCompatibilityScore, tieOrder]
  norm_num

lemma tie_score_far : calculateDriverScore tieDriverFar tieOrder = 100 := by
  simp only [calculateDriverScore]
  rw [tie_dist_far, tie_compat_far]
  simp only [tieDriverFar, List.length_nil, Nat.cast_zero, jsOrDefault]
  rw [if_neg (by norm_num : ¬ ((100 : ℝ) = 0))]
  rw [max_eq_right (by nlinarith [Real.pi_lt_d2, Real.pi_gt_d2] :
    (0 : ℝ) ≤ 100 - 6371 * ((0.002 - 0) * (Real.pi / 180)) * 5)]
  apply round_eq_int
  · push_cast
    nlinarith [Real.pi_lt_d2, Real.pi_gt_d2]
  · push_cast
    nlinarith [Real.pi_lt_d2, Real.pi_gt_d2]

lemma tie_score_near : calculateDriverScore tieDriverNear tieOrder = 100 := by
  simp only [calculateDriverScore]
  rw [tie_dist_near, tie_compat_near]
  simp only [tieDriverNear, List.length_nil, Nat.cast_zero, jsOrDefault]
  rw [if_neg (by norm_num : ¬ ((100 : ℝ) = 0))]
  rw [max_eq_right (by nlinarith [Real.pi_lt_d2, Real.pi_gt_d2] :
    (0 : ℝ) ≤ 100 - 6371 * ((0.001 - 0) * (Real.pi / 180)) * 5)]
  apply round_eq_int
  · push_cast
    nlinarith [Real.pi_lt_d2, Real.pi_gt_d2]
  · push_cast
    nlinarith [Real.pi_lt_d2, Real.pi_gt_d2]

/-- C3 counterexample: for the pool [far driver, near driver] both
candidates score 100, yet the ranked list keeps the pool order and so
lists the two equal-score drivers in strictly DESCENDING order of
distance, contradicting the claimed ascending-distance tie-break. -/
theorem C3_counterexample :
    (rankDrivers tieOrder [tieDriverFar, tieDriverNear]).map ScoredDriver.score =
        [100, 100] ∧
    (rankDrivers tieOrder [tieDriverFar, tieDriverNear]).map ScoredDriver.distance =
        [6371 * ((0.002 - 0) * (Real.pi / 180)), 6371 * ((0.001 - 0) * (Real.pi / 180))] ∧
    6371 * (((0.001 : ℝ) - 0) * (Real.pi / 180)) <
        6371 * ((0.002 - 0) * (Real.pi / 180)) := by
  refine ⟨?_, ?_, by nlinarith [Real.pi_pos]⟩
  · simp [rankDrivers, sortDescBy, insertDescBy, scoreDriverEntry,
      tie_score_far, tie_score_near]
  · simp [rankDrivers, sortDescBy, insertDescBy, scoreDriverEntry,
      tie_score_far, tie_score_near, tie_dist_far, tie_dist_near]

end RouteOpt
